/-
Verification of picard-plugin-tools (src/picard_plugin_tools/__init__.py)
against its natural-language specification.

The Python source is shallowly embedded: pure computations become Lean
functions, filesystem and archive side effects become explicit data
(lists of entries, explicit byte lists), fallible operations return
`Except`.  External library collaborators (hashlib.md5, zlib's CRC-32)
are abstracted as function parameters; os.path arithmetic on the
POSIX-style relative paths produced by the walks is computed directly.
-/
import Mathlib

set_option linter.unusedVariables false

/-! ### Python values and expressions (for `ast.literal_eval`)

`get_plugin_data` (source lines 67-91) walks the top-level nodes of a
parsed Python module.  We model the fragment of the Python AST that the
function inspects: assignment statements, name targets with their
store/load context, and expression nodes split into the classes that
`ast.literal_eval` accepts (constants, list displays) and the classes it
rejects with `ValueError` (names, calls, operator expressions). -/

/-- A Python literal value as produced by `ast.literal_eval`. -/
inductive PyVal where
  | vstr (s : String)
  | vint (n : Int)
  | vbool (b : Bool)
  | vnone
  | vlist (xs : List PyVal)

mutual
/-- A Python expression node, restricted to the shapes relevant to
`ast.literal_eval`: evaluable literal nodes (`econst`, `elist`) and
representative non-literal nodes (`ename`, `ecall`, `ebinop`) which
`literal_eval` rejects with `ValueError`. -/
inductive PyExpr where
  | econst (v : PyVal)
  | elist (xs : PyExprList)
  | ename (id : String)
  | ecall
  | ebinop
inductive PyExprList where
  | nil
  | cons (x : PyExpr) (xs : PyExprList)
end

mutual
/-- `ast.literal_eval`: evaluates literal expression nodes; raises
`ValueError` (modelled as `.error ()`) on names, calls and operator
expressions. -/
def literal_eval : PyExpr → Except Unit PyVal
  | .econst v => .ok v
  | .elist xs =>
    match literal_eval_list xs with
    | .ok vs => .ok (.vlist vs)
    | .error e => .error e
  | .ename _ => .error ()
  | .ecall => .error ()
  | .ebinop => .error ()
/-- Elementwise evaluation of a list display's elements. -/
def literal_eval_list : PyExprList → Except Unit (List PyVal)
  | .nil => .ok []
  | .cons x xs =>
    match literal_eval x with
    | .error e => .error e
    | .ok v =>
      match literal_eval_list xs with
      | .error e => .error e
      | .ok vs => .ok (v :: vs)
end

/-- An assignment target node: `ast.Name` (with its store-context flag,
`isinstance(target.ctx, ast.Store)`) or any other target shape
(tuples, attributes, subscripts...). -/
inductive PTarget where
  | name (id : String) (store : Bool)
  | tother

/-- A top-level statement node: `ast.Assign` with its target list and
value expression, or any other statement kind. -/
inductive PStmt where
  | assign (targets : List PTarget) (value : PyExpr)
  | sother

/-- The keys of the `KNOWN_DATA` dict (source lines 56-64), in
insertion order. -/
def KNOWN_KEYS : List String :=
  ["PLUGIN_NAME", "PLUGIN_AUTHOR", "PLUGIN_VERSION", "PLUGIN_API_VERSIONS",
   "PLUGIN_LICENSE", "PLUGIN_LICENSE_URL", "PLUGIN_DESCRIPTION"]

/-- Python's `str.replace(pat, '', 1)` on character lists: remove only
the first occurrence of the (non-empty) pattern. -/
def removeFirstOcc (pat : List Char) : List Char → List Char
  | [] => []
  | c :: cs =>
    if pat.isPrefixOf (c :: cs) then (c :: cs).drop pat.length
    else c :: removeFirstOcc pat cs

/-- Python's `str.replace(pat, '', 1)`. -/
def replaceFirst (s pat : String) : String :=
  String.mk (removeFirstOcc pat.toList s.toList)

/-- ASCII lowering of one character (`str.lower` restricted to the ASCII
range, which covers every known key). -/
def lowerChar (c : Char) : Char :=
  if 'A' ≤ c ∧ c ≤ 'Z' then Char.ofNat (c.toNat + 32) else c

/-- `str.lower()` (ASCII). -/
def strLower (s : String) : String :=
  String.mk (s.toList.map lowerChar)

/-- `target.id.replace('PLUGIN_', '', 1).lower()` (source line 83). -/
def canonKey (id : String) : String :=
  strLower (replaceFirst id "PLUGIN_")

/-- One iteration of the `for node in ast.iter_child_nodes(root)` loop of
`get_plugin_data` (source lines 77-90).  `data` is the accumulated dict,
modelled as an association list in insertion order. -/
def stepGPD (data : List (String × PyVal)) (node : PStmt) : List (String × PyVal) :=
  match node with
  | .assign [PTarget.name id store] v =>
    if store = true ∧ id ∈ KNOWN_KEYS then
      let nm := canonKey id
      if (data.lookup nm).isNone then
        match literal_eval v with
        | .ok val => data ++ [(nm, val)]
        | .error _ => data
      else data
    else data
  | _ => data

/-- `get_plugin_data` (source lines 67-91) applied to an already-parsed
module body: folds the extraction step over the top-level statements,
starting from the empty dict. -/
def get_plugin_data (stmts : List PStmt) : List (String × PyVal) :=
  stmts.foldl stepGPD []

/-- `get_plugin_data` at the file level (source lines 70-76): the file's
parse outcome is either a `SyntaxError` (message `e`), which the function
re-raises after printing, or a module body which is extracted. -/
def get_plugin_data_file (parsed : Except String (List PStmt)) :
    Except String (List (String × PyVal)) :=
  match parsed with
  | .error e => .error e
  | .ok stmts => .ok (get_plugin_data stmts)

/-- Spec-side reformulation (for claim C7), following the spec's words
rather than the source's loop: the value a known-key `k` should receive
from a single statement, namely the evaluated literal of a top-level
single-target store-assignment to a known raw name canonicalizing to
`k`, if the evaluation succeeds. -/
def specLiteralBindingTo (k : String) (node : PStmt) : Option PyVal :=
  match node with
  | .assign [PTarget.name id true] v =>
    if id ∈ KNOWN_KEYS ∧ canonKey id = k then (literal_eval v).toOption
    else none
  | _ => none

/-- Spec-side reformulation (for claim C7): "first occurrence of a given
key wins" — the first successfully evaluated known-key literal binding
for `k` in the module body. -/
def specFirstBinding (stmts : List PStmt) (k : String) : Option PyVal :=
  (stmts.filterMap (specLiteralBindingTo k)).head?

/-! ### Path helpers (os.path on the POSIX-style relative paths) -/

/-- Splitting a character list at a separator character (the pieces, in
order; always non-empty). -/
def splitOnChar (sep : Char) : List Char → List (List Char)
  | [] => [[]]
  | c :: cs =>
    if c = sep then [] :: splitOnChar sep cs
    else
      match splitOnChar sep cs with
      | [] => [[c]]
      | h :: t => (c :: h) :: t

/-- `os.path.basename`: the component after the last `/`. -/
def basename (s : String) : String :=
  String.mk ((splitOnChar '/' s.toList).getLastD s.toList)

/-- The extension part of `os.path.splitext(filename)[1]` for a path
component without separators: the suffix starting at the last dot,
provided some non-dot character occurs before that dot (so entirely
dotted prefixes such as `.bashrc` yield no extension). -/
def splitextExt (name : String) : String :=
  let cs := name.toList
  match ((List.range cs.length).filter (fun i => cs.getD i ' ' = '.')).getLast? with
  | none => ""
  | some d =>
    if (List.range d).any (fun i => cs.getD i ' ' ≠ '.') then
      String.mk (cs.drop d)
    else ""

/-! ### The archive model

A zip entry is modelled by its name and the CRC-32 the zip format stores
for it (`file.filename`, `file.CRC`).  The per-entry CRC of a written
file is the CRC function applied to the file's bytes; the CRC function
itself (zlib's crc32) is an external collaborator and is a parameter. -/

/-- A zip archive member as seen through `ZipInfo`: its name in the
archive and the CRC-32 recorded by the format. -/
structure ZEntry where
  filename : String
  crc : Nat
deriving DecidableEq, Repr

/-- A finished archive with an embedded `MANIFEST.json`: the member list
in write order, and the `'files'` field of the embedded manifest
document (what `json.loads` of the `MANIFEST.json` member yields; when
several members carry that name, `ZipFile.open` resolves to the
last-written one). -/
structure PArchive where
  entries : List ZEntry
  manifestFiles : List ZEntry
deriving DecidableEq, Repr

/-- The members written for the walked plugin files, shared between
`package_files` (source lines 161-174) and `package_folder` (source
lines 210-223): with exactly one file the entry is the file's base name
(no directory prefix); otherwise each file is stored at
`<plugin-dir-name>/<path relative to the plugin dir>` (the path relative
to the plugin directory's parent).  `files` pairs each walked file's
path relative to the plugin directory with its bytes, in walk order. -/
def package_entries (crc : List Nat → Nat) (dirname : String)
    (files : List (String × List Nat)) : List ZEntry :=
  match files with
  | [f] => [⟨basename f.1, crc f.2⟩]
  | _ => files.map (fun f => ⟨dirname ++ "/" ++ f.1, crc f.2⟩)

/-- Python error classes that reach the embedded control flow. -/
inductive PyErr where
  | oserror
  | syntaxError
  | unsupportedOperation
  | unboundLocalError
deriving DecidableEq, Repr

/-- Outcome of `package_folder` (source lines 192-234): the archive
members persisted on disk (in write order), the `'files'` list recorded
into the rewritten manifest document (the `info_list` of line 224, taken
before the manifest member is added), and the function result —
`ok` when the manifest existed, or the `UnboundLocalError` raised by
`return manifest_data` (line 234) when it did not. -/
structure PFResult where
  archive : List ZEntry
  manifestFiles : List ZEntry
  result : Except PyErr Unit
deriving Repr

/-- `package_folder` (source lines 192-234).  `manifestExists` models
`manifest_path and os.path.exists(manifest_path)` (line 225): both a
falsy path and a non-existing one take the same branch.  `mcrc` is the
CRC the zip format assigns to the rewritten manifest document's bytes
when it is embedded.  The plugin members are written before the manifest
is consulted, so the archive is created and populated in either case. -/
def package_folder (crc : List Nat → Nat) (dirname : String)
    (files : List (String × List Nat)) (manifestExists : Bool) (mcrc : Nat) :
    PFResult :=
  let info_list := package_entries crc dirname files
  if manifestExists then
    { archive := info_list ++ [⟨"MANIFEST.json", mcrc⟩],
      manifestFiles := info_list,
      result := .ok () }
  else
    { archive := info_list,
      manifestFiles := [],
      result := .error .unboundLocalError }

/-- Reading back the archive `package_folder` left on disk: its member
list, and the `'files'` field of the embedded manifest (the last member
named `MANIFEST.json` is the rewritten manifest document, whose
`'files'` field is the recorded `info_list`). -/
def pfArchive (pf : PFResult) : PArchive :=
  ⟨pf.archive, pf.manifestFiles⟩

/-- The live `info_list` computed by `verify_package` (source line 255):
every member of the archive except those named `MANIFEST.json`, in the
archive's listing order. -/
def live_info_list (a : PArchive) : List ZEntry :=
  a.entries.filter (fun f => !(f.filename == "MANIFEST.json"))

/-- `verify_package` (source lines 253-262): true iff the live member
list equals, as a sequence, the list recorded under the manifest's
`'files'` field. -/
def verify_package (a : PArchive) : Bool :=
  if live_info_list a = a.manifestFiles then true else false

/-- Rewriting the content of the `i`-th archive member (0-based) so that
the zip format now records CRC `c` for it; other members and all names
are untouched. -/
def setCrc : List ZEntry → Nat → Nat → List ZEntry
  | [], _, _ => []
  | e :: es, 0, c => ⟨e.filename, c⟩ :: es
  | e :: es, i + 1, c => e :: setCrc es i c

/-! ### Whole-archive md5 sidecar (`package_files` / `validate_plugin`) -/

/-- The `.md5` sidecar `package_files` writes next to an archive (source
lines 175-176): the hex digest of the archive file's bytes.  `md5hex`
abstracts `hashlib.md5(...).hexdigest()`. -/
def package_files_sidecar (md5hex : List Nat → String) (archiveBytes : List Nat) :
    String :=
  md5hex (archiveBytes)

/-- `validate_plugin` (source lines 180-184): true iff the sidecar text
equals the freshly recomputed digest of the archive file's bytes. -/
def validate_plugin (md5hex : List Nat → String) (archiveBytes : List Nat)
    (sidecar : String) : Bool :=
  if sidecar == md5hex (archiveBytes) then true else false

/-- Truncating a byte sequence by one byte (dropping the final byte). -/
def truncate1 (bytes : List Nat) : List Nat :=
  bytes.dropLast

/-! ### The catalog build (`build_json`, source lines 94-132)

The filesystem under one plugin directory is modelled as the list of its
regular files in `os.walk` order: for each, its path relative to the
plugin directory, the outcome of opening and reading its bytes
(`.error ()` models an `OSError`), and — consulted only for `.py`
files — the outcome of `ast.parse` on its text (`.error ()` models a
`SyntaxError`). -/

/-- One regular file under a plugin directory. -/
structure SrcFile where
  relpath : String
  readBytes : Except Unit (List Nat)
  parsed : Except Unit (List PStmt)

/-- A top-level plugin directory under the source dir. -/
structure Plugin where
  dirname : String
  files : List SrcFile

/-- A source directory: its top-level subdirectories in `os.walk`
order. -/
structure SourceDir where
  plugins : List Plugin

/-- A per-plugin catalog record: the extracted metadata dict merged with
the file-hash map under `'files'` (source lines 128-129). -/
structure PluginRecord where
  data : List (String × PyVal)
  files : List (String × String)

/-- The catalog mapping plugin dirname to its record, in insertion
order. -/
def Catalog := List (String × PluginRecord)

/-- The call `get_plugin_data(os.path.join(source_dir, dirname, filename))`
(source line 121): note it joins the walked file's *base name* directly
under the plugin directory, so for a file nested in a subdirectory it
opens the same-named file at the plugin's top level — `FileNotFoundError`
(an `OSError`) when no such file exists.  On success, the file is read,
parsed (`SyntaxError` on parse failure) and extracted. -/
def pyExtract (p : Plugin) (fname : String) : Except PyErr (List (String × PyVal)) :=
  match p.files.find? (fun g => g.relpath == fname) with
  | none => .error .oserror
  | some g =>
    match g.readBytes with
    | .error _ => .error .oserror
    | .ok _ =>
      match g.parsed with
      | .error _ => .error .syntaxError
      | .ok stmts => .ok (get_plugin_data stmts)

/-- One iteration of the inner `for filename in filenames` loop of
`build_json` (source lines 110-123), threading the `(files, data)` state
through `Except`: `.pyc` files are skipped; otherwise the file is read
(`OSError` propagates) and its md5 recorded under its path relative to
the plugin dir; for a `.py` file while `data` is still empty, metadata
extraction is attempted, catching only `SyntaxError` (line 122). -/
def procFile (md5hex : List Nat → String) (p : Plugin)
    (st : List (String × String) × List (String × PyVal)) (f : SrcFile) :
    Except PyErr (List (String × String) × List (String × PyVal)) :=
  let fname := basename f.relpath
  let ext := splitextExt fname
  if ext = ".pyc" then .ok st
  else
    match f.readBytes with
    | .error _ => .error .oserror
    | .ok bytes =>
      let files' := st.1 ++ [(f.relpath, md5hex bytes)]
      if ext = ".py" ∧ st.2.isEmpty then
        match pyExtract p fname with
        | .ok d => .ok (files', d)
        | .error .syntaxError => .ok (files', st.2)
        | .error e => .error e
      else .ok (files', st.2)

/-- Processing of one plugin directory by `build_json` (source lines
102-123): fold the per-file step over the plugin's walked files,
starting from empty `files` and `data`. -/
def processPlugin (md5hex : List Nat → String) (p : Plugin) :
    Except PyErr (List (String × String) × List (String × PyVal)) :=
  p.files.foldlM (procFile md5hex p) ([], [])

/-- One iteration of the outer `for dirname in next(os.walk(source_dir))[1]`
loop of `build_json` (source lines 100-129).  A `.git` directory is
skipped.  When both `files` and `data` are non-empty, line 126 executes
`open(os.path.join(os.path.dirname(dirname), 'MANIFEST.json'))` — i.e.
`open('MANIFEST.json')` in the working directory, in the default read
mode — and immediately calls `f.write(...)` on the handle: this raises
unconditionally (`io.UnsupportedOperation` when the file exists,
`FileNotFoundError` otherwise; `cwdManifest` tells which), so the
subsequent merge `data['files'] = files; plugins[dirname] = data`
(lines 128-129) is never reached. -/
def buildStep (md5hex : List Nat → String) (cwdManifest : Bool)
    (plugins : Catalog) (p : Plugin) : Except PyErr Catalog :=
  if p.dirname == ".git" then .ok plugins
  else
    match processPlugin md5hex p with
    | .error e => .error e
    | .ok (files, data) =>
      if ¬files.isEmpty ∧ ¬data.isEmpty then
        .error (if cwdManifest then .unsupportedOperation else .oserror)
      else .ok plugins

/-- `build_json` (source lines 94-132): folds the per-plugin step over
the top-level plugin directories and, if the loop completes, writes the
catalog document `{"plugins": plugins}` to the destination (the write is
the returned value). -/
def build_json (md5hex : List Nat → String) (cwdManifest : Bool)
    (src : SourceDir) : Except PyErr Catalog :=
  match src.plugins.foldlM (buildStep md5hex cwdManifest) ([] : Catalog) with
  | .error e => .error e
  | .ok plugins => .ok plugins

/-! ### Helper lemmas -/

/-- Left-biased choice on optional values (Python's "first occurrence
wins" combinator). -/
def oOr (x y : Option PyVal) : Option PyVal :=
  match x with
  | some v => some v
  | none => y

theorem oOr_none_left (y : Option PyVal) : oOr none y = y := rfl

theorem oOr_none_right (x : Option PyVal) : oOr x none = x := by
  cases x <;> rfl

theorem oOr_assoc (x y z : Option PyVal) :
    oOr (oOr x y) z = oOr x (oOr y z) := by
  cases x <;> rfl

theorem lookup_append (l₁ l₂ : List (String × PyVal)) (k : String) :
    (l₁ ++ l₂).lookup k = oOr (l₁.lookup k) (l₂.lookup k) := by
  induction l₁ with
  | nil => simp [oOr]
  | cons a t ih =>
    obtain ⟨k', v'⟩ := a
    by_cases h : k = k'
    · subst h
      simp [List.lookup, oOr]
    · have hb : (k == k') = false := beq_eq_false_iff_ne.mpr h
      simp [List.lookup, hb, ih]

theorem lookup_singleton (k k' : String) (v : PyVal) :
    ([(k', v)] : List (String × PyVal)).lookup k =
      if k = k' then some v else none := by
  by_cases h : k = k'
  · subst h; simp [List.lookup]
  · have hb : (k == k') = false := beq_eq_false_iff_ne.mpr h
    simp [List.lookup, hb, h]

theorem lookup_eq_none_iff (l : List (String × PyVal)) (k : String) :
    l.lookup k = none ↔ k ∉ l.map Prod.fst := by
  induction l with
  | nil => simp
  | cons a t ih =>
    obtain ⟨k', v'⟩ := a
    by_cases h : k = k'
    · subst h; simp [List.lookup]
    · have hb : (k == k') = false := beq_eq_false_iff_ne.mpr h
      simp [List.lookup, hb, h, ih]

theorem stepGPD_lookup (acc : List (String × PyVal)) (n : PStmt) (k : String) :
    (stepGPD acc n).lookup k = oOr (acc.lookup k) (specLiteralBindingTo k n) := by
  cases n with
  | sother => simp [stepGPD, specLiteralBindingTo, oOr_none_right]
  | assign ts v =>
    rcases ts with _ | ⟨t, ts'⟩
    · simp [stepGPD, specLiteralBindingTo, oOr_none_right]
    · rcases ts' with _ | ⟨t2, ts''⟩
      · rcases t with ⟨id, store⟩ | _
        · cases store with
          | false => simp [stepGPD, specLiteralBindingTo, oOr_none_right]
          | true =>
            by_cases hk : id ∈ KNOWN_KEYS
            · by_cases hck : canonKey id = k
              · subst hck
                cases hacc : acc.lookup (canonKey id) with
                | some w =>
                  simp [stepGPD, specLiteralBindingTo, hk, hacc, oOr]
                | none =>
                  cases hev : literal_eval v with
                  | ok val =>
                    simp [stepGPD, specLiteralBindingTo, hk, hacc, hev,
                      lookup_append, lookup_singleton, oOr, Except.toOption]
                  | error e =>
                    simp [stepGPD, specLiteralBindingTo, hk, hacc, hev, oOr,
                      Except.toOption]
              · have hspec : specLiteralBindingTo k (.assign [.name id true] v) = none := by
                  simp [specLiteralBindingTo, hck]
                rw [hspec, oOr_none_right]
                cases hacc : acc.lookup (canonKey id) with
                | some w => simp [stepGPD, hk, hacc]
                | none =>
                  cases hev : literal_eval v with
                  | ok val =>
                    have hone : ([(canonKey id, val)] : List (String × PyVal)).lookup k = none := by
                      simp only [lookup_singleton, ite_eq_right_iff]
                      intro h
                      exact absurd h.symm hck
                    simp [stepGPD, hk, hacc, hev, lookup_append, hone, oOr_none_right]
                  | error e => simp [stepGPD, hk, hacc, hev]
            · simp [stepGPD, specLiteralBindingTo, hk, oOr_none_right]
        · simp [stepGPD, specLiteralBindingTo, oOr_none_right]
      · simp [stepGPD, specLiteralBindingTo, oOr_none_right]

theorem specFirstBinding_cons (n : PStmt) (rest : List PStmt) (k : String) :
    specFirstBinding (n :: rest) k =
      oOr (specLiteralBindingTo k n) (specFirstBinding rest k) := by
  unfold specFirstBinding
  rw [List.filterMap_cons]
  cases h : specLiteralBindingTo k n <;> simp [oOr]

theorem foldl_stepGPD_lookup (stmts : List PStmt) :
    ∀ (acc : List (String × PyVal)) (k : String),
      (stmts.foldl stepGPD acc).lookup k =
        oOr (acc.lookup k) (specFirstBinding stmts k) := by
  induction stmts with
  | nil =>
    intro acc k
    simp [specFirstBinding, oOr_none_right]
  | cons n rest ih =>
    intro acc k
    rw [List.foldl_cons, ih, stepGPD_lookup, oOr_assoc, specFirstBinding_cons]

theorem stepGPD_nodup (acc : List (String × PyVal)) (n : PStmt)
    (h : (acc.map Prod.fst).Nodup) : ((stepGPD acc n).map Prod.fst).Nodup := by
  cases n with
  | sother => exact h
  | assign ts v =>
    rcases ts with _ | ⟨t, ts'⟩
    · exact h
    · rcases ts' with _ | ⟨t2, ts''⟩
      · rcases t with ⟨id, store⟩ | _
        · cases store with
          | false => exact h
          | true =>
            by_cases hk : id ∈ KNOWN_KEYS
            · cases hacc : acc.lookup (canonKey id) with
              | some w => simp [stepGPD, hk, hacc, h]
              | none =>
                cases hev : literal_eval v with
                | ok val =>
                  have hmem : canonKey id ∉ acc.map Prod.fst :=
                    (lookup_eq_none_iff acc (canonKey id)).mp hacc
                  simp [stepGPD, hk, hacc, hev, List.nodup_append, h, hmem]
                | error e => simp [stepGPD, hk, hacc, hev, h]
            · simp [stepGPD, hk, h]
        · exact h
      · rcases t with ⟨id2, store2⟩ | _ <;> exact h

theorem foldl_stepGPD_nodup (stmts : List PStmt) :
    ∀ (acc : List (String × PyVal)), (acc.map Prod.fst).Nodup →
      ((stmts.foldl stepGPD acc).map Prod.fst).Nodup := by
  induction stmts with
  | nil => intro acc h; exact h
  | cons n rest ih =>
    intro acc h
    rw [List.foldl_cons]
    exact ih _ (stepGPD_nodup acc n h)

theorem filter_manifest_of_ne (l : List ZEntry)
    (h : ∀ e ∈ l, e.filename ≠ "MANIFEST.json") :
    l.filter (fun f => !(f.filename == "MANIFEST.json")) = l := by
  induction l with
  | nil => rfl
  | cons e t ih =>
    have he : (e.filename == "MANIFEST.json") = false :=
      beq_eq_false_iff_ne.mpr (h e (by simp))
    simp [List.filter_cons, he, ih (fun x hx => h x (by simp [hx]))]

theorem setCrc_getElem (l : List ZEntry) (i c : Nat) :
    (setCrc l i c)[i]? = l[i]?.map (fun e => ⟨e.filename, c⟩) := by
  induction l generalizing i with
  | nil => cases i <;> simp [setCrc]
  | cons e t ih =>
    cases i with
    | zero => simp [setCrc]
    | succ j => simp [setCrc, ih]

theorem setCrc_append_left (l₁ l₂ : List ZEntry) (i c : Nat) (h : i < l₁.length) :
    setCrc (l₁ ++ l₂) i c = setCrc l₁ i c ++ l₂ := by
  induction l₁ generalizing i with
  | nil => exact absurd h (by simp)
  | cons e t ih =>
    cases i with
    | zero => simp [setCrc]
    | succ j =>
      simp only [List.cons_append, setCrc, List.length_cons] at *
      exact congrArg (e :: ·) (ih j (Nat.lt_of_succ_lt_succ h))

theorem setCrc_map_filename (l : List ZEntry) (i c : Nat) :
    (setCrc l i c).map ZEntry.filename = l.map ZEntry.filename := by
  induction l generalizing i with
  | nil => rfl
  | cons e t ih =>
    cases i with
    | zero => simp [setCrc]
    | succ j => simp [setCrc, ih]

theorem setCrc_ne (l : List ZEntry) (i c : Nat) (e : ZEntry)
    (he : l[i]? = some e) (hc : c ≠ e.crc) : setCrc l i c ≠ l := by
  intro heq
  have h1 : (setCrc l i c)[i]? = l[i]? := by rw [heq]
  rw [setCrc_getElem, he] at h1
  apply hc
  exact congrArg ZEntry.crc (Option.some.inj (by simpa using h1))

/-! ### Claim theorems -/

/-- C1.  `verify_package` returns true iff the archive's live
(filename, crc) sequence — its members in listing order with the
`MANIFEST.json` entry excluded — is element-for-element equal to the
list recorded under the embedded manifest's `'files'` field; recording
any permutation of the live listing other than the listing itself makes
it return false. -/
theorem verify_package_ordered_equality (a : PArchive) :
    (verify_package a = true ↔ live_info_list a = a.manifestFiles) ∧
    ∀ r : List ZEntry, r.Perm (live_info_list a) → r ≠ live_info_list a →
      verify_package ⟨a.entries, r⟩ = false := by
  constructor
  · by_cases h : live_info_list a = a.manifestFiles <;> simp [verify_package, h]
  · intro r hperm hne
    have h2 : live_info_list ⟨a.entries, r⟩ = live_info_list a := rfl
    simp only [verify_package, h2]
    rw [if_neg (fun hh => hne hh.symm)]

/-- Witness for C1 at a concrete archive: verification succeeds on the
recorded order and fails on the swapped order. -/
theorem verify_package_ordered_equality_witness :
    verify_package ⟨[⟨"p/a.py", 11⟩, ⟨"p/b.txt", 22⟩, ⟨"MANIFEST.json", 9⟩],
                    [⟨"p/a.py", 11⟩, ⟨"p/b.txt", 22⟩]⟩ = true ∧
    verify_package ⟨[⟨"p/a.py", 11⟩, ⟨"p/b.txt", 22⟩, ⟨"MANIFEST.json", 9⟩],
                    [⟨"p/b.txt", 22⟩, ⟨"p/a.py", 11⟩]⟩ = false := by
  constructor
  · exact (verify_package_ordered_equality
      ⟨[⟨"p/a.py", 11⟩, ⟨"p/b.txt", 22⟩, ⟨"MANIFEST.json", 9⟩],
       [⟨"p/a.py", 11⟩, ⟨"p/b.txt", 22⟩]⟩).1.mpr (by decide)
  · exact (verify_package_ordered_equality
      ⟨[⟨"p/a.py", 11⟩, ⟨"p/b.txt", 22⟩, ⟨"MANIFEST.json", 9⟩],
       [⟨"p/a.py", 11⟩, ⟨"p/b.txt", 22⟩]⟩).2
      [⟨"p/b.txt", 22⟩, ⟨"p/a.py", 11⟩] (by decide) (by decide)

/-- C2.  Right after `package_files` writes an archive and its `.md5`
sidecar, `validate_plugin` returns true; on the archive truncated by one
byte it returns false, provided the digest function distinguishes the
truncated bytes from the original (true of md5 for all practically
encountered inputs; md5 itself is an external collaborator, abstracted
as the parameter `md5hex`). -/
theorem validate_plugin_sidecar_roundtrip (md5hex : List Nat → String)
    (bytes : List Nat)
    (hc : md5hex (truncate1 bytes) ≠ md5hex bytes) :
    validate_plugin md5hex bytes (package_files_sidecar md5hex bytes) = true ∧
    validate_plugin md5hex (truncate1 bytes) (package_files_sidecar md5hex bytes) = false := by
  constructor
  · simp [validate_plugin, package_files_sidecar]
  · have hb : (md5hex bytes == md5hex (truncate1 bytes)) = false :=
      beq_eq_false_iff_ne.mpr (fun h => hc h.symm)
    simp [validate_plugin, package_files_sidecar, hb]

/-- A concrete stand-in for the abstract digest parameter, used by the
witnesses: the decimal rendering of the byte count. -/
def md5model : List Nat → String :=
  fun bs => toString bs.length

/-- Witness for C2 at a concrete archive byte sequence. -/
theorem validate_plugin_sidecar_roundtrip_witness :
    validate_plugin md5model [0, 1, 2] (package_files_sidecar md5model [0, 1, 2]) = true ∧
    validate_plugin md5model (truncate1 [0, 1, 2])
      (package_files_sidecar md5model [0, 1, 2]) = false :=
  validate_plugin_sidecar_roundtrip md5model [0, 1, 2] (by decide)

/-- C7.  `get_plugin_data` yields a mapping (association list with
pairwise distinct keys) in which every key's value is exactly the first
successfully evaluated literal assigned to that canonicalized known key
— unknown names contribute nothing, each key is the `PLUGIN_`-stripped
lowercased raw name, and later duplicate assignments are ignored. -/
theorem get_plugin_data_characterization (stmts : List PStmt) :
    (∀ k, (get_plugin_data stmts).lookup k = specFirstBinding stmts k) ∧
    ((get_plugin_data stmts).map Prod.fst).Nodup := by
  constructor
  · intro k
    unfold get_plugin_data
    rw [foldl_stepGPD_lookup]
    rfl
  · exact foldl_stepGPD_nodup stmts [] (by simp)

/-- C8.  A binding whose assigned expression is not a safe literal (the
evaluation raises `ValueError`) is simply dropped: extraction of the
surrounding statements proceeds exactly as if the failing statement were
absent (hence only that key is omitted and a mapping is still
returned). -/
theorem get_plugin_data_eval_failure_skips_binding
    (pre post : List PStmt) (id : String) (store : Bool) (v : PyExpr)
    (hv : literal_eval v = .error ()) :
    get_plugin_data (pre ++ PStmt.assign [PTarget.name id store] v :: post) =
      get_plugin_data (pre ++ post) := by
  have hstep : ∀ data, stepGPD data (PStmt.assign [PTarget.name id store] v) = data := by
    intro data
    cases store with
    | false => rfl
    | true =>
      by_cases hk : id ∈ KNOWN_KEYS
      · cases hacc : data.lookup (canonKey id) with
        | some w => simp [stepGPD, hk, hacc]
        | none => simp [stepGPD, hk, hacc, hv]
      · simp [stepGPD, hk]
  unfold get_plugin_data
  rw [List.foldl_append, List.foldl_append, List.foldl_cons, hstep]

/-- Witness for C8: a `PLUGIN_NAME` binding to a function call is
skipped, and the following `PLUGIN_AUTHOR` literal is still
extracted. -/
theorem get_plugin_data_eval_failure_skips_binding_witness :
    get_plugin_data
      [PStmt.assign [PTarget.name "PLUGIN_NAME" true] PyExpr.ecall,
       PStmt.assign [PTarget.name "PLUGIN_AUTHOR" true] (PyExpr.econst (PyVal.vstr "A"))] =
    get_plugin_data
      [PStmt.assign [PTarget.name "PLUGIN_AUTHOR" true] (PyExpr.econst (PyVal.vstr "A"))] :=
  get_plugin_data_eval_failure_skips_binding []
    [PStmt.assign [PTarget.name "PLUGIN_AUTHOR" true] (PyExpr.econst (PyVal.vstr "A"))]
    "PLUGIN_NAME" true PyExpr.ecall rfl

/-- C9.  When the source file cannot be parsed, `get_plugin_data`
propagates the parse failure to its caller: the result is exactly the
error (nothing of the file is evaluated in this purely syntactic model)
and in particular never any — even empty — mapping. -/
theorem get_plugin_data_parse_error_propagates (e : String) :
    get_plugin_data_file (.error e) = .error e ∧
    ∀ m, get_plugin_data_file (.error e) ≠ .ok m := by
  refine ⟨rfl, ?_⟩
  intro m h
  exact Except.noConfusion h

/-- C10.  When the manifest path is falsy or names no existing file,
`package_folder` takes the error branch at its final statement — the
`UnboundLocalError` raised by `return manifest_data` — and the archive
has nevertheless already been created and fully populated with the
plugin's entries (the side effect is not rolled back). -/
theorem package_folder_missing_manifest_unbound_local
    (crc : List Nat → Nat) (dirname : String)
    (files : List (String × List Nat)) (mcrc : Nat) :
    (package_folder crc dirname files false mcrc).result =
        .error .unboundLocalError ∧
    (package_folder crc dirname files false mcrc).archive =
        package_entries crc dirname files :=
  ⟨rfl, rfl⟩

/-- C6.  Archive naming, shared by `package_files` and `package_folder`:
with exactly one walked file the single entry carries the file's base
name with no directory prefix; otherwise every file is stored at
`<plugin-dir-name>/<relative path>` — each entry name begins with the
plugin directory's own name and preserves the relative structure
beneath it.  (In `package_folder` the embedded manifest member is added
after these entries.) -/
theorem package_entries_naming (crc : List Nat → Nat) (d : String)
    (fs : List (String × List Nat)) :
    (∀ f, fs = [f] →
      (package_entries crc d fs).map ZEntry.filename = [basename f.1]) ∧
    (fs.length ≠ 1 →
      (package_entries crc d fs).map ZEntry.filename =
        fs.map (fun f => d ++ "/" ++ f.1) ∧
      ∀ n ∈ (package_entries crc d fs).map ZEntry.filename,
        ∃ p, n = d ++ "/" ++ p) := by
  constructor
  · rintro f rfl; rfl
  · intro hlen
    have hmap : package_entries crc d fs =
        fs.map (fun f => ⟨d ++ "/" ++ f.1, crc f.2⟩) := by
      match fs with
      | [] => rfl
      | [f] => exact absurd rfl hlen
      | f :: g :: t => rfl
    refine ⟨?_, ?_⟩
    · rw [hmap, List.map_map]; rfl
    · intro n hn
      rw [hmap, List.map_map] at hn
      simp only [List.mem_map] at hn
      obtain ⟨f, hf, hfe⟩ := hn
      exact ⟨f.1, hfe.symm⟩

/-- A concrete stand-in for the abstract CRC-32 parameter, used by the
witnesses: the sum of the bytes. -/
def crcModel : List Nat → Nat :=
  fun bs => bs.foldl (fun a b => a + b) 0

/-- Witness for C6 at concrete directories: a lone nested file is
flattened to its base name; two files keep the dirname-prefixed
paths. -/
theorem package_entries_naming_witness :
    (package_entries crcModel "plug" [("sub/x.py", [1])]).map ZEntry.filename
      = ["x.py"] ∧
    (package_entries crcModel "plug" [("a.txt", [1]), ("sub/b.txt", [2])]).map ZEntry.filename
      = ["plug/a.txt", "plug/sub/b.txt"] := by
  constructor
  · exact ((package_entries_naming crcModel "plug" [("sub/x.py", [1])]).1
      ("sub/x.py", [1]) rfl).trans (by decide)
  · exact (((package_entries_naming crcModel "plug"
      [("a.txt", [1]), ("sub/b.txt", [2])]).2 (by decide)).1).trans (by decide)

/-- Counterexample to C5 as stated: a plugin directory whose single file
is itself named `MANIFEST.json` is flattened to that reserved name, the
recorded `info_list` then contains an entry named `MANIFEST.json`, but
`verify_package` excludes every member of that name from the live list —
so verification fails immediately after building. -/
theorem package_folder_manifest_name_clash :
    verify_package (pfArchive (package_folder crcModel "p"
      [("MANIFEST.json", [1, 2, 3])] true 7)) = false := by decide

/-- C5 (amended).  Provided no entry written for the plugin's own files
is named `MANIFEST.json` (which only the single-file flattening can
produce), the archive built by `package_folder` with an existing
manifest verifies immediately after building; and rewriting the content
of any one archived member, when the new content's CRC differs from the
recorded one, flips `verify_package` to false. -/
theorem package_folder_verify_roundtrip (crc : List Nat → Nat) (dirname : String)
    (files : List (String × List Nat)) (mcrc : Nat)
    (hn : "MANIFEST.json" ∉ (package_entries crc dirname files).map ZEntry.filename) :
    verify_package (pfArchive (package_folder crc dirname files true mcrc)) = true ∧
    ∀ (i : Nat) (e : ZEntry) (newBytes : List Nat),
      (package_entries crc dirname files)[i]? = some e →
      crc newBytes ≠ e.crc →
      verify_package
        ⟨setCrc (package_folder crc dirname files true mcrc).archive i (crc newBytes),
         (package_folder crc dirname files true mcrc).manifestFiles⟩ = false := by
  have hne : ∀ x ∈ package_entries crc dirname files, x.filename ≠ "MANIFEST.json" := by
    intro x hx hxe
    exact hn (hxe ▸ List.mem_map_of_mem ZEntry.filename hx)
  have hfilter : (package_entries crc dirname files ++ [(⟨"MANIFEST.json", mcrc⟩ : ZEntry)]).filter
      (fun f => !(f.filename == "MANIFEST.json")) = package_entries crc dirname files := by
    rw [List.filter_append, filter_manifest_of_ne _ hne]
    simp
  have h1 : (package_folder crc dirname files true mcrc).archive
      = package_entries crc dirname files ++ [(⟨"MANIFEST.json", mcrc⟩ : ZEntry)] := rfl
  have h2 : (package_folder crc dirname files true mcrc).manifestFiles
      = package_entries crc dirname files := rfl
  constructor
  · simp only [verify_package, pfArchive, live_info_list, h1, h2]
    rw [hfilter, if_pos rfl]
  · intro i e newBytes he hc
    have hilen : i < (package_entries crc dirname files).length := by
      by_contra hge
      push_neg at hge
      rw [List.getElem?_eq_none hge] at he
      exact Option.noConfusion he
    have harch : setCrc ((package_folder crc dirname files true mcrc).archive) i (crc newBytes)
        = setCrc (package_entries crc dirname files) i (crc newBytes)
          ++ [(⟨"MANIFEST.json", mcrc⟩ : ZEntry)] := by
      rw [h1, setCrc_append_left _ _ _ _ hilen]
    have hne2 : ∀ x ∈ setCrc (package_entries crc dirname files) i (crc newBytes),
        x.filename ≠ "MANIFEST.json" := by
      intro x hx
      have hx2 : x.filename ∈ (setCrc (package_entries crc dirname files) i
          (crc newBytes)).map ZEntry.filename := List.mem_map_of_mem _ hx
      rw [setCrc_map_filename] at hx2
      intro hxe
      exact hn (hxe ▸ hx2)
    have hfilter2 : (setCrc (package_entries crc dirname files) i (crc newBytes)
        ++ [(⟨"MANIFEST.json", mcrc⟩ : ZEntry)]).filter (fun f => !(f.filename == "MANIFEST.json"))
        = setCrc (package_entries crc dirname files) i (crc newBytes) := by
      rw [List.filter_append, filter_manifest_of_ne _ hne2]
      simp
    have hnee : setCrc (package_entries crc dirname files) i (crc newBytes)
        ≠ package_entries crc dirname files :=
      setCrc_ne _ i _ e he hc
    simp only [verify_package, live_info_list, harch, h2]
    rw [hfilter2, if_neg hnee]

/-- Witness for C5 (amended) at a concrete two-file plugin: the fresh
archive verifies; corrupting the first member's content invalidates
it. -/
theorem package_folder_verify_roundtrip_witness :
    verify_package (pfArchive (package_folder crcModel "p"
      [("a.py", [1]), ("sub/b.txt", [2, 3])] true 0)) = true ∧
    verify_package
      ⟨setCrc (package_folder crcModel "p"
          [("a.py", [1]), ("sub/b.txt", [2, 3])] true 0).archive 0 (crcModel [5, 5]),
       (package_folder crcModel "p"
          [("a.py", [1]), ("sub/b.txt", [2, 3])] true 0).manifestFiles⟩ = false := by
  have h := package_folder_verify_roundtrip crcModel "p"
    [("a.py", [1]), ("sub/b.txt", [2, 3])] 0 (by decide)
  exact ⟨h.1, h.2 0 ⟨"p/a.py", 1⟩ [5, 5] (by decide) (by decide)⟩

/-! ### Claims C3 and C4: the catalog build -/

/-- A plugin directory that clearly qualifies for the catalog: one
readable `plugin.py` whose parse yields a `PLUGIN_NAME` literal
binding. -/
def goodPlugin : Plugin :=
  ⟨"goodplugin",
   [⟨"plugin.py", .ok [1],
     .ok [PStmt.assign [PTarget.name "PLUGIN_NAME" true]
            (PyExpr.econst (PyVal.vstr "Good"))]⟩]⟩

/-- A source directory holding only `goodPlugin`. -/
def srcGood : SourceDir := ⟨[goodPlugin]⟩

/-- C3 (evaluation of the code at the failing input).  A plugin with a
non-empty file-hash map and non-empty metadata is exactly the case the
claim says is merged and written into the catalog; instead `build_json`
raises at the read-mode manifest rewrite of line 126 (an
`io.UnsupportedOperation` when `MANIFEST.json` exists in the working
directory, a `FileNotFoundError` — an `OSError` — otherwise), so no
catalog document is produced at all. -/
theorem build_json_inclusion_write_crashes :
    build_json md5model true srcGood = .error .unsupportedOperation ∧
    build_json md5model false srcGood = .error .oserror := by
  constructor <;> rfl

/-- A plugin whose only file cannot be read (`OSError` on open/read). -/
def brokenPlugin : Plugin :=
  ⟨"brokenplugin", [⟨"data.bin", .error (), .ok []⟩]⟩

/-- A harmless plugin: its file is readable but yields no metadata, so
it is skipped without touching the buggy manifest rewrite. -/
def okPlugin : Plugin :=
  ⟨"okplugin", [⟨"readme.txt", .ok [7], .ok []⟩]⟩

/-- Counterexample to C4 as stated: an `OSError` while reading one
plugin's file is not swallowed — `build_json` aborts with the error and
the catalog document is never produced, not even for the remaining
healthy plugin directory. -/
theorem build_json_single_plugin_error_aborts :
    build_json md5model false ⟨[brokenPlugin, okPlugin]⟩ = .error .oserror := rfl

/-- C4 (amended).  Per-plugin error containment in `build_json` covers
only `SyntaxError` raised while extracting metadata (the lone
`try/except` of lines 120-123): a plugin whose files are all readable
and whose `.py` files each have a same-named top-level file always
processes to a result, even when every parse fails; any other error —
such as an `OSError` from an unreadable file — propagates out of the
plugin's processing and aborts the whole catalog build. -/
theorem build_json_error_containment :
    (∀ (md5hex : List Nat → String) (p : Plugin),
      (∀ f ∈ p.files, f.readBytes.isOk = true) →
      (∀ f ∈ p.files, splitextExt (basename f.relpath) = ".py" →
        ∃ g ∈ p.files, g.relpath = basename f.relpath) →
      ∃ r, processPlugin md5hex p = .ok r) ∧
    (∀ (md5hex : List Nat → String) (b : Bool) (p : Plugin) (e : PyErr),
      p.dirname ≠ ".git" → processPlugin md5hex p = .error e →
      build_json md5hex b ⟨[p]⟩ = .error e) := by
  constructor
  · intro md5hex p hreads hres
    suffices h : ∀ fs : List SrcFile, (∀ f ∈ fs, f ∈ p.files) →
        ∀ st, ∃ r, List.foldlM (procFile md5hex p) st fs = .ok r by
      exact h p.files (fun f hf => hf) ([], [])
    intro fs
    induction fs with
    | nil => exact fun _ st => ⟨st, rfl⟩
    | cons f t ih =>
      intro hsub st
      have hf : f ∈ p.files := hsub f (by simp)
      have hstep : ∃ st', procFile md5hex p st f = .ok st' := by
        cases hread : f.readBytes with
        | error u =>
          have hok := hreads f hf
          rw [hread] at hok
          exact absurd hok (by simp [Except.isOk, Except.toBool])
        | ok bytes =>
          by_cases hpyc : splitextExt (basename f.relpath) = ".pyc"
          · exact ⟨st, by simp [procFile, hpyc]⟩
          · by_cases hpy : splitextExt (basename f.relpath) = ".py" ∧ st.2.isEmpty
            · obtain ⟨g, hg, hge⟩ := hres f hf hpy.1
              have hfind : (p.files.find? (fun g => g.relpath == basename f.relpath)).isSome := by
                rw [List.find?_isSome]
                exact ⟨g, hg, beq_iff_eq.mpr hge⟩
              obtain ⟨g₀, hg₀⟩ := Option.isSome_iff_exists.mp hfind
              have hg₀mem : g₀ ∈ p.files := List.mem_of_find?_eq_some hg₀
              have hg₀ok := hreads g₀ hg₀mem
              cases hgread : g₀.readBytes with
              | error u =>
                rw [hgread] at hg₀ok
                exact absurd hg₀ok (by simp [Except.isOk, Except.toBool])
              | ok gb =>
                cases hgparse : g₀.parsed with
                | ok stmts =>
                  refine ⟨(st.1 ++ [(f.relpath, md5hex bytes)], get_plugin_data stmts), ?_⟩
                  simp [procFile, hpyc, hread, hpy, pyExtract, hg₀, hgread, hgparse]
                | error u =>
                  refine ⟨(st.1 ++ [(f.relpath, md5hex bytes)], st.2), ?_⟩
                  simp [procFile, hpyc, hread, hpy, pyExtract, hg₀, hgread, hgparse]
            · refine ⟨(st.1 ++ [(f.relpath, md5hex bytes)], st.2), ?_⟩
              simp only [procFile, hread]
              rw [if_neg hpyc, if_neg hpy]
      obtain ⟨st', hst'⟩ := hstep
      obtain ⟨r, hr⟩ := ih (fun x hx => hsub x (List.mem_cons_of_mem _ hx)) st'
      refine ⟨r, ?_⟩
      rw [List.foldlM_cons, hst']
      exact hr
  · intro md5hex b p e hgit hproc
    have hbeq : (p.dirname == ".git") = false := beq_eq_false_iff_ne.mpr hgit
    simp [build_json, List.foldlM, buildStep, hbeq, hproc]

/-- Witness for C4 (amended): a plugin whose sole `.py` file fails to
parse still processes to a result, while the unreadable plugin aborts
the single-plugin catalog build with its `OSError`. -/
theorem build_json_error_containment_witness :
    (∃ r, processPlugin md5model ⟨"syntaxplugin", [⟨"bad.py", .ok [], .error ()⟩]⟩ = .ok r) ∧
    build_json md5model false ⟨[brokenPlugin]⟩ = .error .oserror := by
  constructor
  · exact build_json_error_containment.1 md5model
      ⟨"syntaxplugin", [⟨"bad.py", .ok [], .error ()⟩]⟩ (by decide) (by decide)
  · exact build_json_error_containment.2 md5model false brokenPlugin .oserror
      (by decide) (by rfl)
